import Mathlib

/-!
Verification of the context-protector hook pipeline.

The development embeds, in Lean, the data model and the operations of the
context-protector repository: the JSON-level hook protocol types, the
hook-event decision engine, the check-mode entry point, the LlamaFirewall
guardrail provider (`src/context_protector/providers/llama_firewall.py`),
and the configuration toggle (`src/context_protector/config.py`).
Components whose Python source is not part of the repository snapshot
(`guardrail_types.py`, `hook_handler.py`, the package entry point) are
modelled from the specification document; their doc comments say so.
-/

namespace ContextProtector

/-! ## JSON values

Python dictionaries and JSON documents exchanged on the wire are modelled
by the type `J`.  Objects are association lists, which keeps key order
significant the way `json.dumps` does. -/

inductive J where
  | null : J
  | bool : Bool → J
  | str : String → J
  | num : Int → J
  | arr : List J → J
  | obj : List (String × J) → J

/-- Lookup of a key in a JSON object (first occurrence wins, as in a
Python dict where keys are unique). -/
def jLookup (fields : List (String × J)) (key : String) : Option J :=
  match fields with
  | [] => none
  | (k, v) :: rest => if k = key then some v else jLookup rest key

/-- Escaping of a single character inside a JSON string literal, as
`json.dumps` performs it for the characters that matter here. -/
def escChar (c : Char) : List Char :=
  if c = '"' then ['\\', '"']
  else if c = '\\' then ['\\', '\\']
  else if c = '\n' then ['\\', 'n']
  else if c = '\t' then ['\\', 't']
  else if c = '\r' then ['\\', 'r']
  else [c]

def escList : List Char → List Char
  | [] => []
  | c :: cs => escChar c ++ escList cs

def escString (s : String) : String := ⟨escList s.toList⟩

/-- One decimal digit character. -/
def decDigit (n : Nat) : Char :=
  match n with
  | 0 => '0'
  | 1 => '1'
  | 2 => '2'
  | 3 => '3'
  | 4 => '4'
  | 5 => '5'
  | 6 => '6'
  | 7 => '7'
  | 8 => '8'
  | _ => '9'

def natDigitsAux : Nat → Nat → List Char → List Char
  | 0, _, acc => acc
  | fuel + 1, n, acc =>
    if n < 10 then decDigit n :: acc
    else natDigitsAux fuel (n / 10) (decDigit (n % 10) :: acc)

/-- Decimal rendering of an integer, as `json.dumps` renders `int`. -/
def intToDec (i : Int) : String :=
  match i with
  | .ofNat n => ⟨natDigitsAux (n + 1) n []⟩
  | .negSucc m => ⟨'-' :: natDigitsAux (m + 2) (m + 1) []⟩

mutual

/-- Serialization of a JSON value on one line, in the style of
`json.dumps` (default separators). -/
def dumpJ : J → String
  | .null => "null"
  | .bool true => "true"
  | .bool false => "false"
  | .str s => "\"" ++ escString s ++ "\""
  | .num n => intToDec n
  | .arr xs => "[" ++ dumpJList xs ++ "]"
  | .obj fs => "\x7b" ++ dumpJObj fs ++ "\x7d"

def dumpJList : List J → String
  | [] => ""
  | [x] => dumpJ x
  | x :: y :: xs => dumpJ x ++ ", " ++ dumpJList (y :: xs)

def dumpJObj : List (String × J) → String
  | [] => ""
  | [(k, v)] => "\"" ++ escString k ++ "\": " ++ dumpJ v
  | (k, v) :: p :: fs => "\"" ++ escString k ++ "\": " ++ dumpJ v ++ ", " ++ dumpJObj (p :: fs)

end

/-! ## Guardrail data types

The module `guardrail_types.py` is not part of the repository snapshot
(only its tests are), so the types below are modelled from the
specification document, section 3. -/

/-- Modelled from the spec: ContentToCheck is
`content: string, content_type: string, tool_name: optional string,
context: mapping` (spec section 3); the Python source file
`guardrail_types.py` is missing from the snapshot. -/
structure ContentToCheck where
  content : String
  content_type : String
  tool_name : Option String := none
  context : List (String × J) := []

/-- GuardrailAlert, following `guardrail_types.py` as used by
`providers/llama_firewall.py`: an explanation string plus a
provider-specific data mapping (default empty). -/
structure GuardrailAlert where
  explanation : String
  data : List (String × J) := []

/-- Modelled from the spec: the closed hook-event enum of spec section 3;
`guardrail_types.py` is missing from the snapshot. -/
inductive HookEventName where
  | PRE_TOOL_USE
  | POST_TOOL_USE
  | STOP
  | SUB_AGENT_STOP
deriving DecidableEq

/-- Modelled from the spec: the wire names of the hook events accepted by
`HookInput.from_dict` (spec section 3 and the wire format of section 6);
note the wire value for `SUB_AGENT_STOP` is `SubagentStop`. -/
def recognizedEventName : String → Option HookEventName
  | "PreToolUse" => some .PRE_TOOL_USE
  | "PostToolUse" => some .POST_TOOL_USE
  | "Stop" => some .STOP
  | "SubagentStop" => some .SUB_AGENT_STOP
  | _ => none

/-- Modelled from the spec: HookInput of spec section 3;
`guardrail_types.py` is missing from the snapshot. -/
structure HookInput where
  session_id : String := ""
  transcript_path : String := ""
  cwd : String := ""
  permission_mode : String := "default"
  hook_event_name : HookEventName
  tool_name : Option String := none
  tool_input : Option J := none
  tool_use_id : Option String := none
  tool_result : Option String := none

/-- String field of a JSON object with a default for an absent field. -/
def getStrD (d : List (String × J)) (key : String) (dflt : String) : String :=
  match jLookup d key with
  | some (J.str s) => s
  | _ => dflt

/-- Optional string field of a JSON object (absent or null gives none). -/
def getOptStr (d : List (String × J)) (key : String) : Option String :=
  match jLookup d key with
  | some (J.str s) => some s
  | _ => none

/-- Optional JSON field (absent or null gives none). -/
def getOptJ (d : List (String × J)) (key : String) : Option J :=
  match jLookup d key with
  | some J.null => none
  | some j => some j
  | none => none

/-- Modelled from the spec: `HookInput.from_dict` parses the inbound JSON
object; absent optional fields default (empty string, "default", or
None), and an unrecognized or missing `hook_event_name` is a hard parse
error (spec sections 3 and 7); `guardrail_types.py` is missing from the
snapshot. -/
def HookInput.from_dict (d : List (String × J)) : Except String HookInput :=
  match jLookup d "hook_event_name" with
  | some (J.str s) =>
    match recognizedEventName s with
    | some ev =>
      .ok { session_id := getStrD d "session_id" ""
            transcript_path := getStrD d "transcript_path" ""
            cwd := getStrD d "cwd" ""
            permission_mode := getStrD d "permission_mode" "default"
            hook_event_name := ev
            tool_name := getOptStr d "tool_name"
            tool_input := getOptJ d "tool_input"
            tool_use_id := getOptStr d "tool_use_id"
            tool_result := getOptStr d "tool_result" }
    | none => .error ("Unknown hook_event_name: " ++ s)
  | _ => .error "Missing or invalid hook_event_name"

/-- Modelled from the spec: PermissionDecision enum (spec section 3). -/
inductive PermissionDecision where
  | allow
  | deny
deriving DecidableEq

def PermissionDecision.wire : PermissionDecision → String
  | .allow => "allow"
  | .deny => "deny"

/-- Modelled from the spec: PostToolUseDecision enum, where `n` stands
for the source's NONE value meaning "omit the decision field entirely"
(spec section 3). -/
inductive PostToolUseDecision where
  | n
  | block
deriving DecidableEq

/-- Modelled from the spec: the PreToolUse-specific payload of the
standard output shape (spec section 6); `guardrail_types.py` is missing
from the snapshot. -/
structure PreToolUseOutput where
  permission_decision : PermissionDecision
  permission_decision_reason : Option String := none
  updated_input : Option J := none

/-- Modelled from the spec: serialization of the PreToolUse payload
(spec section 6 wire format; optional fields are omitted, not null). -/
def PreToolUseOutput.to_dict (o : PreToolUseOutput) : List (String × J) :=
  [("hookEventName", J.str "PreToolUse"),
   ("permissionDecision", J.str o.permission_decision.wire)]
  ++ (match o.permission_decision_reason with
      | some r => [("permissionDecisionReason", J.str r)]
      | none => [])
  ++ (match o.updated_input with
      | some u => [("updatedInput", u)]
      | none => [])

/-- Modelled from the spec: the post-tool-use output shape (spec
section 6); `guardrail_types.py` is missing from the snapshot. -/
structure PostToolUseOutput where
  decision : PostToolUseDecision
  reason : Option String := none
  additional_context : Option String := none

/-- Modelled from the spec: serialization of the post-tool-use shape:
optional top-level `decision` (only when block) and `reason`, then
`hookSpecificOutput` with `hookEventName` and optional
`additionalContext` (spec section 6). -/
def PostToolUseOutput.to_dict (o : PostToolUseOutput) : List (String × J) :=
  (match o.decision with
   | .block => [("decision", J.str "block")]
   | .n => [])
  ++ (match o.reason with
      | some r => [("reason", J.str r)]
      | none => [])
  ++ [("hookSpecificOutput",
       J.obj ([("hookEventName", J.str "PostToolUse")]
              ++ (match o.additional_context with
                  | some c => [("additionalContext", J.str c)]
                  | none => [])))]

/-- Modelled from the spec: HookOutput, a record carrying both the
standard-shape fields and the optional post-tool-use payload; when the
post-tool-use payload is set it fully determines serialization (spec
sections 3 and 6, design note on the tagged output union). -/
structure HookOutput where
  continue_execution : Bool := true
  stop_reason : Option String := none
  system_message : Option String := none
  hook_specific_output : Option PreToolUseOutput := none
  post_tool_use_output : Option PostToolUseOutput := none

/-- Modelled from the spec: `HookOutput.to_dict` emits the post-tool-use
shape whenever `post_tool_use_output` is set, else the standard shape
with omission of absent optional fields (spec section 6). -/
def HookOutput.to_dict (o : HookOutput) : List (String × J) :=
  match o.post_tool_use_output with
  | some p => p.to_dict
  | none =>
    [("continue", J.bool o.continue_execution)]
    ++ (match o.stop_reason with
        | some r => [("stopReason", J.str r)]
        | none => [])
    ++ (match o.system_message with
        | some m => [("systemMessage", J.str m)]
        | none => [])
    ++ (match o.hook_specific_output with
        | some h => [("hookSpecificOutput", J.obj h.to_dict)]
        | none => [])

/-! ## Hook decision engine

The module `hook_handler.py` is not part of the repository snapshot
(only its tests are), so `HookHandler.handle` is modelled from the
specification document, section 4.2.  The provider is abstracted as a
function from content to an optional alert; `handle` additionally
returns the list of contents actually submitted to the provider, so
that "the provider is never invoked" is expressible. -/

/-- Modelled from the spec: the checkable content of a PreToolUse event,
`(json-serialized tool_input, "tool_input")` (spec section 4.2);
`hook_handler.py` is missing from the snapshot. -/
def serializedToolInput (hi : HookInput) : String :=
  match hi.tool_input with
  | none => ""
  | some j => dumpJ j

/-- Modelled from the spec: the ContentToCheck built for a PreToolUse
event (spec sections 3 and 4.2). -/
def preToolContent (hi : HookInput) : ContentToCheck :=
  { content := serializedToolInput hi
    content_type := "tool_input"
    tool_name := hi.tool_name }

/-- Modelled from the spec: the ContentToCheck built for a PostToolUse
event, `(tool_result, "tool_output")` (spec sections 3 and 4.2). -/
def postToolContent (hi : HookInput) (r : String) : ContentToCheck :=
  { content := r
    content_type := "tool_output"
    tool_name := hi.tool_name }

/-- Modelled from the spec: the warn-mode additional context of a
PostToolUse alert, "a formatted block containing `SECURITY WARNING`, the
tool name, and `alert.explanation`" (spec section 4.2); the exact layout
is not given by the spec, only the three required parts. -/
def securityWarningContext (tool_name : Option String) (explanation : String) : String :=
  "SECURITY WARNING: the output of tool " ++
    (match tool_name with | some t => t | none => "unknown") ++
    " was flagged: " ++ explanation

/-- Modelled from the spec: the HookHandler decision engine, the state
machine of spec section 4.2 keyed by `hook_event_name`.  The second
component of the result lists the contents submitted to the provider
during the call (empty when no check is performed). -/
def HookHandler.handle (provider : ContentToCheck → Option GuardrailAlert)
    (response_mode : String) (hi : HookInput) : HookOutput × List ContentToCheck :=
  match hi.hook_event_name with
  | .STOP => ({ continue_execution := true }, [])
  | .SUB_AGENT_STOP => ({ continue_execution := true }, [])
  | .PRE_TOOL_USE =>
    if serializedToolInput hi = "" then
      ({ continue_execution := true
         hook_specific_output := some { permission_decision := .allow } }, [])
    else
      let c := preToolContent hi
      match provider c with
      | none =>
        ({ continue_execution := true
           hook_specific_output := some { permission_decision := .allow } }, [c])
      | some a =>
        if response_mode = "block" then
          ({ continue_execution := true
             hook_specific_output := some
               { permission_decision := .deny
                 permission_decision_reason := some ("BLOCKED: " ++ a.explanation) } }, [c])
        else
          ({ continue_execution := true
             system_message := some ("⚠️ WARNING: " ++ a.explanation)
             hook_specific_output := some { permission_decision := .allow } }, [c])
  | .POST_TOOL_USE =>
    match hi.tool_result with
    | none => ({ post_tool_use_output := some { decision := .n } }, [])
    | some r =>
      if r = "" then
        ({ post_tool_use_output := some { decision := .n } }, [])
      else
        let c := postToolContent hi r
        match provider c with
        | none => ({ post_tool_use_output := some { decision := .n } }, [c])
        | some a =>
          if response_mode = "block" then
            ({ post_tool_use_output := some
                 { decision := .block
                   reason := some ("SECURITY ALERT: " ++ a.explanation) } }, [c])
          else
            ({ post_tool_use_output := some
                 { decision := .n
                   additional_context :=
                     some (securityWarningContext hi.tool_name a.explanation) } }, [c])

/-! ## Check-mode entry point

The package entry point implementing the `--check` command is not part
of the repository snapshot (only its tests are), so it is modelled from
the specification document, sections 4.3 and 6. -/

/-- Modelled from the spec: the result of the simplified check contract,
`safe` plus an optional alert object (spec section 4.3); the entry-point
source is missing from the snapshot. -/
structure CheckResult where
  safe : Bool
  alert : Option J := none

/-- Modelled from the spec: serialization of a CheckResult,
`{"safe": bool, "alert": null | object}` (spec section 6). -/
def CheckResult.to_dict (r : CheckResult) : List (String × J) :=
  [("safe", J.bool r.safe),
   ("alert", match r.alert with | some a => a | none => J.null)]

/-- Modelled from the spec: the outcome of reading and JSON-parsing the
check-mode input stream: empty or whitespace-only stdin, malformed JSON
(with the parser message), or a parsed JSON object (spec section 4.3);
the entry-point source is missing from the snapshot. -/
inductive StdinRead where
  | emptyInput
  | invalidJson (msg : String)
  | parsed (d : List (String × J))

/-- Modelled from the spec: the JSON object printed by
`_handle_check_command`: empty/missing content short-circuits to safe,
a provider exception or an input failure is downgraded to
`safe=true` with an `error` field (spec sections 4.3 and 7). -/
def handleCheckObj (stdin : StdinRead)
    (check : String → String → Option String → Except String CheckResult) :
    List (String × J) :=
  match stdin with
  | .emptyInput => [("safe", J.bool true), ("error", J.str "Empty input")]
  | .invalidJson msg => [("safe", J.bool true), ("error", J.str ("Invalid JSON: " ++ msg))]
  | .parsed d =>
    let content := getStrD d "content" ""
    if content = "" then
      [("safe", J.bool true), ("alert", J.null)]
    else
      let ctype := getStrD d "type" "tool_input"
      let tool_name := getOptStr d "tool_name"
      match check content ctype tool_name with
      | .ok r => r.to_dict
      | .error msg => [("safe", J.bool true), ("error", J.str msg)]

/-- Modelled from the spec: `_handle_check_command` prints exactly one
line of JSON and exits with code 0 (spec section 4.3); the pair is
(stdout contents, exit code). -/
def handle_check_command (stdin : StdinRead)
    (check : String → String → Option String → Except String CheckResult) :
    String × Nat :=
  (dumpJ (J.obj (handleCheckObj stdin check)) ++ "\n", 0)

/-! ## LlamaFirewall provider

Embedding of `src/context_protector/providers/llama_firewall.py`.  The
third-party `llamafirewall` library is abstracted as an environment:
an import outcome and a scan oracle; the provider logic itself (scanner
selection, alert composition, the auth-error fallback) is transcribed
from the source. -/

/-- Scanner identifiers of the llamafirewall library used by
`LlamaFirewallProvider._get_scanners`. -/
inductive ScannerType where
  | PROMPT_GUARD
  | HIDDEN_ASCII
  | REGEX
  | CODE_SHIELD
deriving DecidableEq

/-- Message roles of the llamafirewall library: `Role.TOOL` for
tool output, `Role.USER` otherwise. -/
inductive LFRole where
  | USER
  | TOOL
deriving DecidableEq

/-- Scan decisions of the llamafirewall library. -/
inductive ScanDecision where
  | ALLOW
  | BLOCK
  | HUMAN_IN_THE_LOOP_REQUIRED
deriving DecidableEq

def ScanDecision.pyStr : ScanDecision → String
  | .ALLOW => "ScanDecision.ALLOW"
  | .BLOCK => "ScanDecision.BLOCK"
  | .HUMAN_IN_THE_LOOP_REQUIRED => "ScanDecision.HUMAN_IN_THE_LOOP_REQUIRED"

/-- A scan result of the llamafirewall library: a decision plus an
optional `reason` attribute (absent attribute modelled as `none`). -/
structure ScanResult where
  decision : ScanDecision
  reason : Option String := none

/-- The behaviour of the external llamafirewall library: `importError`
is the message of the `ImportError` raised by `_get_llamafirewall` (or
`none` when the import succeeds), and `scan` gives, for a scanner set, a
role and a content string, either a result or the message of a raised
exception. -/
structure LFEnv where
  importError : Option String
  scan : List ScannerType → LFRole → String → Except String ScanResult

/-- The mutable state of a `LlamaFirewallProvider` instance: the
scanner mode fixed at construction and the `_use_fallback` flag. -/
structure LFProvState where
  scanner_mode : String
  use_fallback : Bool
deriving DecidableEq

/-- The no-auth scanner list of `_get_scanners`. -/
def noAuthScanners : List ScannerType :=
  [.HIDDEN_ASCII, .REGEX, .CODE_SHIELD]

/-- The full scanner list of `_get_scanners`:
`[PROMPT_GUARD] + no_auth`. -/
def fullScanners : List ScannerType :=
  .PROMPT_GUARD :: noAuthScanners

/-- `LlamaFirewallProvider._get_scanners`: the no-auth set when the
fallback flag is set or the mode is "basic", the full set otherwise. -/
def lfGetScanners (st : LFProvState) : List ScannerType :=
  if st.use_fallback || st.scanner_mode = "basic" then noAuthScanners else fullScanners

/-- Role selection in `check_content`: `Role.TOOL` for "tool_output"
content, `Role.USER` otherwise. -/
def lfRoleOf (content_type : String) : LFRole :=
  if content_type = "tool_output" then .TOOL else .USER

/-- Substring test on character lists (Python `in` on str). -/
def hasSubList (sub : List Char) : List Char → Bool
  | [] => sub.isEmpty
  | c :: rest => sub.isPrefixOf (c :: rest) || hasSubList sub rest

/-- Substring test on strings (Python `"x" in s`). -/
def strHasSub (s sub : String) : Bool := hasSubList sub.toList s.toList

/-- First line of a string (Python `s.split("\n")[0]`). -/
def firstLine (s : String) : String :=
  match s.splitOn "\n" with
  | [] => s
  | x :: _ => x

/-- The explanation built by `check_content` when the lazy import of
llamafirewall failed. -/
def importErrorExplanation (err : String) : String :=
  if strHasSub err "manual model setup" || strHasSub err "HfFolder" then err
  else "LlamaFirewall not available: " ++ err

/-- The canned explanation of an authentication failure
("gated repo" / "403") outside the auto fallback. -/
def authErrorExplanation : String :=
  "LlamaFirewall PROMPT_GUARD requires authentication. " ++
  "Set CONTEXT_PROTECTOR_SCANNER_MODE=basic to use without auth."

/-- The canned explanation of an "HfFolder" failure outside the auto
fallback. -/
def hfErrorExplanation : String :=
  "LlamaFirewall requires manual model setup. " ++
  "See: https://github.com/meta-llama/PurpleLlama/tree/main/" ++
  "LlamaFirewall#manual-setup - " ++
  "Or set CONTEXT_PROTECTOR_SCANNER_MODE=basic"

/-- The reason string used for a blocking scan result:
`getattr(result, "reason", None) or "Guardrail triggered"`. -/
def scanReason (r : ScanResult) : String :=
  match r.reason with
  | none => "Guardrail triggered"
  | some s => if s = "" then "Guardrail triggered" else s

/-- `LlamaFirewallProvider.check_content`, transcribed from
`llama_firewall.py` lines 111-189.  The returned pair is the optional
alert together with the provider state after the call (the state changes
exactly when the auto-mode fallback flag is flipped before the single
retry). -/
def LlamaFirewallProvider.check_content (env : LFEnv) (st : LFProvState)
    (content : ContentToCheck) : Option GuardrailAlert × LFProvState :=
  match env.importError with
  | some err =>
    (some { explanation := importErrorExplanation err
            data := [("error", J.str err)] }, st)
  | none =>
    let scanners := lfGetScanners st
    match env.scan scanners (lfRoleOf content.content_type) content.content with
    | .ok result =>
      if result.decision = .ALLOW then
        (none, st)
      else
        (some { explanation := firstLine (scanReason result)
                data := [("decision", J.str result.decision.pyStr),
                         ("content_type", J.str content.content_type),
                         ("tool_name",
                          match content.tool_name with
                          | some t => J.str t
                          | none => J.null)] }, st)
    | .error e =>
      if strHasSub e "gated repo" || strHasSub e "403" then
        if h : st.use_fallback = false ∧ st.scanner_mode = "auto" then
          LlamaFirewallProvider.check_content env { st with use_fallback := true } content
        else
          (some { explanation := authErrorExplanation
                  data := [("error", J.str e)] }, st)
      else if strHasSub e "HfFolder" then
        if h : st.use_fallback = false ∧ st.scanner_mode = "auto" then
          LlamaFirewallProvider.check_content env { st with use_fallback := true } content
        else
          (some { explanation := hfErrorExplanation
                  data := [("error", J.str e)] }, st)
      else
        (some { explanation := "LlamaFirewall error: " ++ e
                data := [("error", J.str e)] }, st)
termination_by (if st.use_fallback then 1 else 2 : Nat)
decreasing_by
  · simp [h.1]
  · simp [h.1]

/-! ## Configuration toggle

Embedding of the `set_enabled` path of `src/context_protector/config.py`:
the regex rewrite of the `enabled:` line, the creation of the default
config file, and the reset of the lazily-loaded global config.  A file
is a list of characters; the store is the pair (config file contents,
cached global `Config`). -/

/-- LlamaFirewall provider configuration (dataclass of `config.py`). -/
structure LlamaFirewallConfig where
  scanner_mode : String := "auto"
deriving DecidableEq

/-- NeMo Guardrails provider configuration (dataclass of `config.py`). -/
structure NeMoGuardrailsConfig where
  mode : String := "all"
  ollama_model : String := "mistral:7b"
  ollama_base_url : String := "http://localhost:11434"
deriving DecidableEq

/-- GCP Model Armor provider configuration (dataclass of `config.py`). -/
structure GCPModelArmorConfig where
  project_id : Option String := none
  location : Option String := none
  template_id : Option String := none
deriving DecidableEq

/-- Complete configuration (dataclass `Config` of `config.py`). -/
structure Config where
  enabled : Bool := true
  provider : String := "LlamaFirewall"
  response_mode : String := "warn"
  log_level : String := "WARNING"
  log_file : Option String := none
  llama_firewall : LlamaFirewallConfig := {}
  nemo_guardrails : NeMoGuardrailsConfig := {}
  gcp_model_armor : GCPModelArmorConfig := {}
deriving DecidableEq

/-- The default config file template `DEFAULT_CONFIG_TEMPLATE` of
`config.py` (written by `save_default_config`). -/
def DEFAULT_CONFIG_TEMPLATE : String :=
  "# Context Protector Configuration\n" ++
  "# Location: ~/.config/context-protector/config.yaml\n" ++
  "#\n" ++
  "# Environment variables override this file (prefix: CONTEXT_PROTECTOR_)\n" ++
  "# Run \x27context-protector init\x27 to regenerate defaults.\n" ++
  "\n" ++
  "# Enable/disable protection (use \x27context-protector --disable\x27 to toggle)\n" ++
  "enabled: true\n" ++
  "\n" ++
  "# Which provider to use: LlamaFirewall, NeMoGuardrails, GCPModelArmor\n" ++
  "provider: LlamaFirewall\n" ++
  "\n" ++
  "# Response mode when threats detected: warn or block\n" ++
  "# - warn: Log threat and inject warning message (default)\n" ++
  "# - block: Block malicious content entirely\n" ++
  "response_mode: warn\n" ++
  "\n" ++
  "# Logging\n" ++
  "log_level: WARNING    # DEBUG, INFO, WARNING, ERROR\n" ++
  "log_file: null        # Optional log file path\n" ++
  "\n" ++
  "# LlamaFirewall provider settings\n" ++
  "llama_firewall:\n" ++
  "  # Scanner mode: auto, basic, or full\n" ++
  "  # - auto: Try full, fall back to basic on auth error (recommended)\n" ++
  "  # - basic: No auth required (HIDDEN_ASCII, REGEX, CODE_SHIELD)\n" ++
  "  # - full: Requires HuggingFace auth (includes PROMPT_GUARD)\n" ++
  "  scanner_mode: auto\n" ++
  "\n" ++
  "# NeMo Guardrails provider settings\n" ++
  "nemo_guardrails:\n" ++
  "  # Detection mode: heuristics, injection, self_check, local, or all\n" ++
  "  # - heuristics: Perplexity-based jailbreak detection (local, no API)\n" ++
  "  # - injection: YARA-based SQL/XSS/code injection detection (local)\n" ++
  "  # - self_check: LLM-based validation (requires OpenAI API)\n" ++
  "  # - local: LLM-based validation using Ollama (fully local)\n" ++
  "  # - all: heuristics + injection combined\n" ++
  "  mode: all\n" ++
  "\n" ++
  "  # Ollama settings for local mode\n" ++
  "  ollama_model: mistral:7b\n" ++
  "  ollama_base_url: http://localhost:11434\n" ++
  "\n" ++
  "# GCP Model Armor provider settings\n" ++
  "# Requires: google-cloud-modelarmor package and GCP authentication\n" ++
  "gcp_model_armor:\n" ++
  "  project_id: null      # Your GCP project ID\n" ++
  "  location: null        # GCP region (e.g., us-central1)\n" ++
  "  template_id: null     # Model Armor template ID\n"

/-- Python 3's regex `\s` class for str patterns (Unicode-aware): the
29 code points accepted by `re.match(r"\s", chr(c))`, namely U+0009 to
U+000D, U+001C to U+001F, the space, next line, no-break space, Ogham
space mark, the U+2000 to U+200A spaces, line separator, paragraph
separator, narrow no-break space, medium mathematical space and
ideographic space.  It includes the newline, so the regex
`^enabled:\s*(true|false)` can match across a line break. -/
def isPySpace (c : Char) : Bool :=
  c = '\t' || c = '\n' || c = '\x0b' || c = '\x0c' || c = '\r' ||
  c = '\x1c' || c = '\x1d' || c = '\x1e' || c = '\x1f' || c = ' ' ||
  c = '\x85' || c = '\xa0' || c = '\u1680' ||
  c = '\u2000' || c = '\u2001' || c = '\u2002' || c = '\u2003' ||
  c = '\u2004' || c = '\u2005' || c = '\u2006' || c = '\u2007' ||
  c = '\u2008' || c = '\u2009' || c = '\u200a' ||
  c = '\u2028' || c = '\u2029' || c = '\u202f' || c = '\u205f' ||
  c = '\u3000'

/-- Length of the maximal leading run of `\s` characters (the greedy
`\s*`). -/
def pyWsCount : List Char → Nat
  | [] => 0
  | c :: rest => if isPySpace c then pyWsCount rest + 1 else 0

/-- Length of the match of the regex `enabled:\s*(true|false)` at the
head of `l`, when it matches there.  The greedy `\s*` needs no
backtracking because neither alternative of `(true|false)` starts with a
whitespace character. -/
def matchEnabledLen (l : List Char) : Option Nat :=
  if ("enabled:".toList).isPrefixOf l then
    if ("true".toList).isPrefixOf ((l.drop 8).drop (pyWsCount (l.drop 8))) then
      some (8 + pyWsCount (l.drop 8) + 4)
    else if ("false".toList).isPrefixOf ((l.drop 8).drop (pyWsCount (l.drop 8))) then
      some (8 + pyWsCount (l.drop 8) + 5)
    else none
  else none

/-- `re.sub(r"^enabled:\s*(true|false)", repl, content, flags=re.MULTILINE)`
over a character list: at each position that starts the string or
follows a newline, a match of the pattern is replaced by `repl` and
scanning resumes after the matched region.  `fuel` bounds the recursion;
one unit per consumed character suffices. -/
def subEnabledAux (repl : List Char) : Nat → Bool → List Char → List Char
  | 0, _, l => l
  | _ + 1, _, [] => []
  | fuel + 1, atStart, c :: rest =>
    if atStart then
      match matchEnabledLen (c :: rest) with
      | some n => repl ++ subEnabledAux repl fuel false ((c :: rest).drop n)
      | none => c :: subEnabledAux repl fuel (c = '\n') rest
    else
      c :: subEnabledAux repl fuel (c = '\n') rest

def subEnabled (repl l : List Char) : List Char :=
  subEnabledAux repl l.length true l

/-- `re.search(r"^enabled:\s*(true|false)", content, re.MULTILINE)`
succeeds: some position at a line start matches the pattern. -/
def hasEnabledMatchAux : Nat → Bool → List Char → Bool
  | 0, _, _ => false
  | _ + 1, _, [] => false
  | fuel + 1, atStart, c :: rest =>
    if atStart && (matchEnabledLen (c :: rest)).isSome then true
    else hasEnabledMatchAux fuel (c = '\n') rest

def hasEnabledMatch (l : List Char) : Bool :=
  hasEnabledMatchAux l.length true l

/-- Decomposition of a file into the regions the multiline substitution
acts on: `plain` characters are copied verbatim, `matched` regions are
the matches of `^enabled:\s*(true|false)` and are the only parts the
substitution replaces. -/
inductive EnChunk where
  | plain (c : Char)
  | matched (orig : List Char)

/-- The original text of a chunk. -/
def EnChunk.orig : EnChunk → List Char
  | .plain c => [c]
  | .matched o => o

/-- The text of a chunk after substitution by `repl`. -/
def EnChunk.subst (repl : List Char) : EnChunk → List Char
  | .plain c => [c]
  | .matched _ => repl

/-- The chunk decomposition followed by `subEnabledAux`. -/
def enChunksAux : Nat → Bool → List Char → List EnChunk
  | 0, _, l => l.map .plain
  | _ + 1, _, [] => []
  | fuel + 1, atStart, c :: rest =>
    if atStart then
      match matchEnabledLen (c :: rest) with
      | some n => .matched ((c :: rest).take n) :: enChunksAux fuel false ((c :: rest).drop n)
      | none => .plain c :: enChunksAux fuel (c = '\n') rest
    else
      .plain c :: enChunksAux fuel (c = '\n') rest

def enChunks (l : List Char) : List EnChunk :=
  enChunksAux l.length true l

/-- The store acted on by `set_enabled`: the contents of the config file
(if it exists) and the lazily-loaded global `Config` instance
(`_config`, `None` when not loaded). -/
structure ConfigStore where
  file : Option (List Char)
  cache : Option Config

/-- `set_enabled` of `config.py` (lines 339-374): create the config file
from the default template when missing, then replace every multiline
match of `^enabled:\s*(true|false)` by `enabled: <true|false>`, or
prepend such a line when the pattern does not occur; write the file back
and reset the cached global config (`reset_config`). -/
def set_enabled (enabled : Bool) (fs : ConfigStore) : ConfigStore :=
  let content : List Char :=
    match fs.file with
    | none => DEFAULT_CONFIG_TEMPLATE.toList
    | some c => c
  let enabledStr : String := if enabled then "true" else "false"
  let repl : List Char := ("enabled: " ++ enabledStr).toList
  let newContent : List Char :=
    if hasEnabledMatch content then subEnabled repl content
    else repl ++ ('\n' :: '\n' :: content)
  { file := some newContent, cache := none }

/-- `get_config` of `config.py` (lines 381-392), with the excluded YAML
loading abstracted as the `load` argument: return the cached instance
when present, otherwise load from the file and cache the result. -/
def get_config (load : Option (List Char) → Config) (fs : ConfigStore) :
    Config × ConfigStore :=
  match fs.cache with
  | some c => (c, fs)
  | none =>
    let c := load fs.file
    (c, { fs with cache := some c })

/-- Concatenated original text of a chunk list. -/
def chunksOrig : List EnChunk → List Char
  | [] => []
  | ch :: rest => ch.orig ++ chunksOrig rest

/-- Concatenated substituted text of a chunk list. -/
def chunksSubst (repl : List Char) : List EnChunk → List Char
  | [] => []
  | ch :: rest => ch.subst repl ++ chunksSubst repl rest


/-- Substring relation on strings (the verification-side reading of
Python's `in` and of "contains" in the spec). -/
def strContains (s sub : String) : Prop := sub.toList <:+: s.toList

/-- A concrete llamafirewall environment: scanning with `PROMPT_GUARD`
raises a 403 authentication error, scanning without it succeeds and
allows.  Exercises the auto-mode fallback path of `check_content`. -/
def c8ScanEnv : LFEnv where
  importError := none
  scan := fun scanners _ _ =>
    if ScannerType.PROMPT_GUARD ∈ scanners then .error "403"
    else .ok { decision := .ALLOW }

/-- A HookOutput with both the standard-shape fields and the
post-tool-use payload populated, used to exhibit that the payload wins. -/
def sampleDualOutput : HookOutput :=
  { continue_execution := true
    system_message := some "ignored"
    post_tool_use_output := some { decision := .block, reason := some "why" } }

/-- A concrete llamafirewall environment whose lazy import fails. -/
def c8ImportEnv : LFEnv where
  importError := some "No module named llamafirewall"
  scan := fun _ _ _ => .ok { decision := .ALLOW }

/-! ## Helper lemmas -/

theorem escChar_no_nl (c : Char) : '\n' ∉ escChar c := by
  unfold escChar
  split
  · simp
  split
  · simp
  split
  · simp
  split
  · simp
  split
  · simp
  rename_i h1 h2 h3 h4 h5
  intro he
  exact h3 (List.mem_singleton.mp he).symm

theorem escList_no_nl (l : List Char) : '\n' ∉ escList l := by
  induction l with
  | nil => simp [escList]
  | cons c cs ih =>
    simp only [escList, List.mem_append]
    rintro (h | h)
    · exact escChar_no_nl c h
    · exact ih h

theorem escString_no_nl (s : String) : '\n' ∉ (escString s).toList := escList_no_nl _

theorem decDigit_ne_nl (n : Nat) : decDigit n ≠ '\n' := by
  unfold decDigit
  split <;> decide

theorem natDigitsAux_no_nl (fuel n : Nat) (acc : List Char) (h : '\n' ∉ acc) :
    '\n' ∉ natDigitsAux fuel n acc := by
  induction fuel generalizing n acc with
  | zero => exact h
  | succ f ih =>
    unfold natDigitsAux
    split
    · intro hmem
      rcases List.mem_cons.mp hmem with he | hm
      · exact decDigit_ne_nl n he.symm
      · exact h hm
    · refine ih _ _ ?_
      intro hmem
      rcases List.mem_cons.mp hmem with he | hm
      · exact decDigit_ne_nl (n % 10) he.symm
      · exact h hm

theorem intToDec_no_nl (i : Int) : '\n' ∉ (intToDec i).toList := by
  match i with
  | .ofNat n => exact natDigitsAux_no_nl _ _ _ (by simp)
  | .negSucc m =>
    show '\n' ∉ '-' :: natDigitsAux (m + 2) (m + 1) []
    intro hmem
    rcases List.mem_cons.mp hmem with he | hm
    · simp at he
    · exact natDigitsAux_no_nl _ _ _ (by simp) hm

mutual

theorem dumpJ_no_nl : ∀ j : J, '\n' ∉ (dumpJ j).toList := by
  intro j
  match j with
  | .null => decide
  | .bool true => decide
  | .bool false => decide
  | .str s =>
    show '\n' ∉ ("\"" ++ escString s ++ "\"").toList
    intro h
    rcases List.mem_append.mp h with h | h
    · rcases List.mem_append.mp h with h | h
      · simp at h
      · exact escString_no_nl s h
    · simp at h
  | .num n => exact intToDec_no_nl n
  | .arr xs =>
    show '\n' ∉ ("[" ++ dumpJList xs ++ "]").toList
    intro h
    rcases List.mem_append.mp h with h | h
    · rcases List.mem_append.mp h with h | h
      · simp at h
      · exact dumpJList_no_nl xs h
    · simp at h
  | .obj fs =>
    show '\n' ∉ ("\x7b" ++ dumpJObj fs ++ "\x7d").toList
    intro h
    rcases List.mem_append.mp h with h | h
    · rcases List.mem_append.mp h with h | h
      · simp at h
      · exact dumpJObj_no_nl fs h
    · simp at h

theorem dumpJList_no_nl : ∀ xs : List J, '\n' ∉ (dumpJList xs).toList := by
  intro xs
  match xs with
  | [] => decide
  | [x] => exact dumpJ_no_nl x
  | x :: y :: rest =>
    show '\n' ∉ (dumpJ x ++ ", " ++ dumpJList (y :: rest)).toList
    intro h
    rcases List.mem_append.mp h with h | h
    · rcases List.mem_append.mp h with h | h
      · exact dumpJ_no_nl x h
      · simp at h
    · exact dumpJList_no_nl (y :: rest) h

theorem dumpJObj_no_nl : ∀ fs : List (String × J), '\n' ∉ (dumpJObj fs).toList := by
  intro fs
  match fs with
  | [] => decide
  | [(k, v)] =>
    show '\n' ∉ ("\"" ++ escString k ++ "\": " ++ dumpJ v).toList
    intro h
    rcases List.mem_append.mp h with h | h
    · rcases List.mem_append.mp h with h | h
      · rcases List.mem_append.mp h with h | h
        · simp at h
        · exact escString_no_nl k h
      · simp at h
    · exact dumpJ_no_nl v h
  | (k, v) :: p :: rest =>
    show '\n' ∉ ("\"" ++ escString k ++ "\": " ++ dumpJ v ++ ", " ++ dumpJObj (p :: rest)).toList
    intro h
    rcases List.mem_append.mp h with h | h
    · rcases List.mem_append.mp h with h | h
      · rcases List.mem_append.mp h with h | h
        · rcases List.mem_append.mp h with h | h
          · rcases List.mem_append.mp h with h | h
            · simp at h
            · exact escString_no_nl k h
          · simp at h
        · exact dumpJ_no_nl v h
      · simp at h
    · exact dumpJObj_no_nl (p :: rest) h

end

theorem natDigitsAux_ne_nil (fuel : Nat) : ∀ n acc, acc ≠ [] → natDigitsAux fuel n acc ≠ [] := by
  induction fuel with
  | zero => intro n acc h; exact h
  | succ f ih =>
    intro n acc h
    unfold natDigitsAux
    split
    · simp
    · exact ih _ _ (by simp)

theorem intToDec_ne_empty (i : Int) : intToDec i ≠ "" := by
  match i with
  | .ofNat n =>
    show (⟨natDigitsAux (n + 1) n []⟩ : String) ≠ ""
    intro hc
    have hl : natDigitsAux (n + 1) n [] = [] := congrArg String.toList hc
    revert hl
    unfold natDigitsAux
    split
    · simp
    · exact natDigitsAux_ne_nil _ _ _ (by simp)
  | .negSucc m =>
    show (⟨'-' :: natDigitsAux (m + 2) (m + 1) []⟩ : String) ≠ ""
    intro hc
    have hl : '-' :: natDigitsAux (m + 2) (m + 1) [] = [] := congrArg String.toList hc
    simp at hl

/-- A serialized JSON value is never the empty string. -/
theorem dumpJ_ne_empty (j : J) : dumpJ j ≠ "" := by
  match j with
  | .null => decide
  | .bool true => decide
  | .bool false => decide
  | .num n => exact intToDec_ne_empty n
  | .str s =>
    show "\"" ++ escString s ++ "\"" ≠ ""
    intro hc
    have h2 := congrArg String.toList hc
    simp at h2
  | .arr xs =>
    show "[" ++ dumpJList xs ++ "]" ≠ ""
    intro hc
    have h2 := congrArg String.toList hc
    simp at h2
  | .obj fs =>
    show "\x7b" ++ dumpJObj fs ++ "\x7d" ≠ ""
    intro hc
    have h2 := congrArg String.toList hc
    simp at h2



/-! ## Frame lemmas for the multiline substitution -/

theorem chunksOrig_map_plain (l : List Char) : chunksOrig (l.map .plain) = l := by
  induction l with
  | nil => rfl
  | cons c rest ih => simp [chunksOrig, EnChunk.orig, ih]

theorem chunksSubst_map_plain (repl l : List Char) :
    chunksSubst repl (l.map .plain) = l := by
  induction l with
  | nil => rfl
  | cons c rest ih => simp [chunksSubst, EnChunk.subst, ih]

/-- The chunk decomposition re-assembles to the original text: the
substitution touches nothing outside the matched regions. -/
theorem enChunksAux_orig (fuel : Nat) :
    ∀ (s : Bool) (l : List Char), chunksOrig (enChunksAux fuel s l) = l := by
  induction fuel with
  | zero => intro s l; exact chunksOrig_map_plain l
  | succ f ih =>
    intro s l
    match l with
    | [] => rfl
    | c :: rest =>
      unfold enChunksAux
      split
      · split
        · rename_i n hn
          simp only [chunksOrig, EnChunk.orig, ih]
          exact List.take_append_drop n (c :: rest)
        · simp [chunksOrig, EnChunk.orig, ih]
      · simp [chunksOrig, EnChunk.orig, ih]

/-- The substitution is the chunk decomposition with every matched
region replaced by `repl`. -/
theorem subEnabledAux_eq_chunks (repl : List Char) (fuel : Nat) :
    ∀ (s : Bool) (l : List Char),
      subEnabledAux repl fuel s l = chunksSubst repl (enChunksAux fuel s l) := by
  induction fuel with
  | zero => intro s l; exact (chunksSubst_map_plain repl l).symm
  | succ f ih =>
    intro s l
    match l with
    | [] => rfl
    | c :: rest =>
      unfold subEnabledAux enChunksAux
      split
      · split
        · rename_i n hn
          simp [chunksSubst, EnChunk.subst, ih]
        · simp [chunksSubst, EnChunk.subst, ih]
      · simp [chunksSubst, EnChunk.subst, ih]

theorem pyWsCount_take_space : ∀ (l : List Char), ∀ c ∈ l.take (pyWsCount l), isPySpace c = true := by
  intro l
  induction l with
  | nil => simp
  | cons c rest ih =>
    unfold pyWsCount
    split
    · rename_i hsp
      intro x hx
      rw [List.take_succ_cons] at hx
      rcases List.mem_cons.mp hx with rfl | hx
      · exact hsp
      · exact ih x hx
    · simp

/-- A successful match of `enabled:\s*(true|false)` decomposes into the
literal `enabled:`, a whitespace run, and one of the two boolean
literals. -/
theorem matchEnabledLen_decomp {l : List Char} {n : Nat} (h : matchEnabledLen l = some n) :
    ∃ w lit, l.take n = "enabled:".toList ++ w ++ lit ∧
      (∀ c ∈ w, isPySpace c = true) ∧
      (lit = "true".toList ∨ lit = "false".toList) := by
  unfold matchEnabledLen at h
  split at h
  case isFalse => exact absurd h (by simp)
  case isTrue hpre =>
    obtain ⟨t, ht⟩ := List.isPrefixOf_iff_prefix.mp hpre
    subst ht
    have hdrop : ("enabled:".toList ++ t).drop 8 = t := by
      have h0 := List.drop_left "enabled:".toList t
      rwa [show ("enabled:".toList).length = 8 from rfl] at h0
    rw [hdrop] at h
    split at h
    case isTrue htr =>
      obtain ⟨u, hu⟩ := List.isPrefixOf_iff_prefix.mp htr
      injection h with hn
      subst hn
      refine ⟨t.take (pyWsCount t), "true".toList, ?_, pyWsCount_take_space t, Or.inl rfl⟩
      have h1 : 8 + pyWsCount t + 4 = 8 + (pyWsCount t + 4) := by omega
      rw [h1, List.take_add, List.take_add]
      have h2 : ("enabled:".toList ++ t).take 8 = "enabled:".toList := by
        have h0 := List.take_left "enabled:".toList t
        rwa [show ("enabled:".toList).length = 8 from rfl] at h0
      rw [h2, hdrop, List.append_assoc]
      congr 2
      rw [← hu]
      have h0 := List.take_left "true".toList u
      rwa [show ("true".toList).length = 4 from rfl] at h0
    case isFalse =>
      split at h
      case isFalse => exact absurd h (by simp)
      case isTrue hfa =>
        obtain ⟨u, hu⟩ := List.isPrefixOf_iff_prefix.mp hfa
        injection h with hn
        subst hn
        refine ⟨t.take (pyWsCount t), "false".toList, ?_, pyWsCount_take_space t, Or.inr rfl⟩
        have h1 : 8 + pyWsCount t + 5 = 8 + (pyWsCount t + 5) := by omega
        rw [h1, List.take_add, List.take_add]
        have h2 : ("enabled:".toList ++ t).take 8 = "enabled:".toList := by
          have h0 := List.take_left "enabled:".toList t
          rwa [show ("enabled:".toList).length = 8 from rfl] at h0
        rw [h2, hdrop, List.append_assoc]
        congr 2
        rw [← hu]
        have h0 := List.take_left "false".toList u
        rwa [show ("false".toList).length = 5 from rfl] at h0

/-- Every matched chunk produced by the decomposition is a genuine match
of the pattern: `enabled:` followed by whitespace and a boolean
literal. -/
theorem enChunksAux_matched (fuel : Nat) :
    ∀ (s : Bool) (l : List Char) (o : List Char),
      EnChunk.matched o ∈ enChunksAux fuel s l →
      ∃ w lit, o = "enabled:".toList ++ w ++ lit ∧
        (∀ c ∈ w, isPySpace c = true) ∧
        (lit = "true".toList ∨ lit = "false".toList) := by
  induction fuel with
  | zero =>
    intro s l o hmem
    exfalso
    rcases List.mem_map.mp hmem with ⟨c, _, hc⟩
    exact EnChunk.noConfusion hc
  | succ f ih =>
    intro s l o hmem
    match l with
    | [] => exact absurd hmem (by simp [enChunksAux])
    | c :: rest =>
      unfold enChunksAux at hmem
      revert hmem
      split
      · split
        · rename_i n hn
          intro hmem
          rcases List.mem_cons.mp hmem with he | hm
          · have ho : o = (c :: rest).take n := by
              injection he.symm with h1
              exact h1.symm
            rw [ho]
            exact matchEnabledLen_decomp hn
          · exact ih _ _ _ hm
        · intro hmem
          rcases List.mem_cons.mp hmem with he | hm
          · exact absurd he (by simp)
          · exact ih _ _ _ hm
      · intro hmem
        rcases List.mem_cons.mp hmem with he | hm
        · exact absurd he (by simp)
        · exact ih _ _ _ hm

theorem toList_append (s t : String) : (s ++ t).toList = s.toList ++ t.toList := rfl

theorem strContains_of_decomp (s sub : String) (a b : List Char)
    (h : s.toList = a ++ (sub.toList ++ b)) : strContains s sub :=
  ⟨a, b, by rw [h]; exact List.append_assoc a sub.toList b⟩

/-! ## Claim theorems -/

/-- C3: for every Stop or SubAgentStop hook input, whatever the other
input fields, the provider and the response mode, `HookHandler.handle`
serializes to exactly the object with the single pair
`"continue": true`, in particular without `hookSpecificOutput`, and the
provider is never invoked. -/
theorem stop_events_trivial_output
    (provider : ContentToCheck → Option GuardrailAlert) (mode : String) (hi : HookInput)
    (h : hi.hook_event_name = .STOP ∨ hi.hook_event_name = .SUB_AGENT_STOP) :
    (HookHandler.handle provider mode hi).1.to_dict = [("continue", J.bool true)] ∧
    jLookup (HookHandler.handle provider mode hi).1.to_dict "hookSpecificOutput" = none ∧
    (HookHandler.handle provider mode hi).2 = [] := by
  rcases h with h | h <;>
    simp [HookHandler.handle, h, HookOutput.to_dict, jLookup]

theorem stop_events_trivial_output_witness :
    (HookHandler.handle (fun _ => none) "warn"
        { hook_event_name := .STOP, tool_result := some "x" }).1.to_dict
      = [("continue", J.bool true)] ∧
    jLookup (HookHandler.handle (fun _ => none) "warn"
        { hook_event_name := .STOP, tool_result := some "x" }).1.to_dict "hookSpecificOutput"
      = none ∧
    (HookHandler.handle (fun _ => none) "warn"
        { hook_event_name := .STOP, tool_result := some "x" }).2 = [] :=
  stop_events_trivial_output (fun _ => none) "warn"
    { hook_event_name := .STOP, tool_result := some "x" } (Or.inl rfl)

/-- C4: for every PostToolUse hook input whose tool_result is None or
empty, and every provider and response mode, the serialized output has
neither a `decision` key nor an `additionalContext` key inside
`hookSpecificOutput`, and the provider is never invoked. -/
theorem post_tool_use_empty_result
    (provider : ContentToCheck → Option GuardrailAlert) (mode : String) (hi : HookInput)
    (hev : hi.hook_event_name = .POST_TOOL_USE)
    (hres : hi.tool_result = none ∨ hi.tool_result = some "") :
    jLookup (HookHandler.handle provider mode hi).1.to_dict "decision" = none ∧
    (∃ ps, jLookup (HookHandler.handle provider mode hi).1.to_dict "hookSpecificOutput"
        = some (J.obj ps) ∧ jLookup ps "additionalContext" = none) ∧
    (HookHandler.handle provider mode hi).2 = [] := by
  rcases hres with h | h <;>
    simp [HookHandler.handle, hev, h, HookOutput.to_dict, PostToolUseOutput.to_dict, jLookup]

theorem post_tool_use_empty_result_witness :
    jLookup (HookHandler.handle (fun _ => some { explanation := "always" }) "block"
        { hook_event_name := .POST_TOOL_USE, tool_name := some "Bash" }).1.to_dict "decision"
      = none ∧
    (∃ ps, jLookup (HookHandler.handle (fun _ => some { explanation := "always" }) "block"
        { hook_event_name := .POST_TOOL_USE, tool_name := some "Bash" }).1.to_dict
          "hookSpecificOutput" = some (J.obj ps) ∧ jLookup ps "additionalContext" = none) ∧
    (HookHandler.handle (fun _ => some { explanation := "always" }) "block"
        { hook_event_name := .POST_TOOL_USE, tool_name := some "Bash" }).2 = [] :=
  post_tool_use_empty_result (fun _ => some { explanation := "always" }) "block"
    { hook_event_name := .POST_TOOL_USE, tool_name := some "Bash" } rfl (Or.inl rfl)

/-- C6: a `HookOutput` serializes to exactly one of the two legal wire
shapes: when `post_tool_use_output` is set, `to_dict` is the post-tool-use
shape and the keys `continue` and `systemMessage` are absent even when the
standard-shape fields are populated; when it is not set, `to_dict` is the
standard shape (with `continue` present and no `decision`/`reason`). -/
theorem hook_output_shape_exclusive (o : HookOutput) :
    (∀ p, o.post_tool_use_output = some p →
      o.to_dict = p.to_dict ∧
      jLookup o.to_dict "continue" = none ∧
      jLookup o.to_dict "systemMessage" = none ∧
      (∃ ps, jLookup o.to_dict "hookSpecificOutput" = some (J.obj ps) ∧
        jLookup ps "hookEventName" = some (J.str "PostToolUse"))) ∧
    (o.post_tool_use_output = none →
      jLookup o.to_dict "continue" = some (J.bool o.continue_execution) ∧
      jLookup o.to_dict "systemMessage" = o.system_message.map J.str ∧
      jLookup o.to_dict "decision" = none ∧
      jLookup o.to_dict "reason" = none) := by
  obtain ⟨ce, sr, sm, hso, pto⟩ := o
  constructor
  · intro p hp
    cases pto with
    | none => exact absurd hp (by simp)
    | some p' =>
      have hpp : p' = p := by injection hp
      subst hpp
      obtain ⟨dec, rsn, ac⟩ := p'
      refine ⟨rfl, ?_, ?_, ?_⟩ <;>
        cases dec <;> rcases rsn with _ | r <;> rcases ac with _ | c <;>
          simp [HookOutput.to_dict, PostToolUseOutput.to_dict, jLookup]
  · intro hp
    cases pto with
    | some p' => exact absurd hp (by simp)
    | none =>
      refine ⟨?_, ?_, ?_, ?_⟩ <;>
        rcases sr with _ | r <;> rcases sm with _ | m <;> rcases hso with _ | hs <;>
          simp [HookOutput.to_dict, jLookup]

theorem hook_output_shape_exclusive_witness :
    sampleDualOutput.to_dict
      = (({ decision := .block, reason := some "why" } : PostToolUseOutput)).to_dict ∧
    jLookup sampleDualOutput.to_dict "continue" = none ∧
    jLookup sampleDualOutput.to_dict "systemMessage" = none ∧
    (∃ ps, jLookup sampleDualOutput.to_dict "hookSpecificOutput" = some (J.obj ps) ∧
      jLookup ps "hookEventName" = some (J.str "PostToolUse")) :=
  (hook_output_shape_exclusive sampleDualOutput).1
    { decision := .block, reason := some "why" } rfl
/-- The securityWarningContext block contains the three parts the spec
requires: the marker, the tool name, and the explanation. -/
theorem securityWarningContext_parts (nm expl : String) :
    strContains (securityWarningContext (some nm) expl) "SECURITY WARNING" ∧
    strContains (securityWarningContext (some nm) expl) nm ∧
    strContains (securityWarningContext (some nm) expl) expl := by
  have hsplit : "SECURITY WARNING: the output of tool ".toList
      = "SECURITY WARNING".toList ++ ": the output of tool ".toList := by decide
  refine ⟨?_, ?_, ?_⟩
  · refine strContains_of_decomp _ _ []
      (": the output of tool ".toList ++ (nm.toList ++ (" was flagged: ".toList ++ expl.toList))) ?_
    show ("SECURITY WARNING: the output of tool " ++ nm ++ " was flagged: " ++ expl).toList = _
    simp only [toList_append, hsplit, List.append_assoc, List.nil_append]
  · refine strContains_of_decomp _ _ "SECURITY WARNING: the output of tool ".toList
      (" was flagged: ".toList ++ expl.toList) ?_
    show ("SECURITY WARNING: the output of tool " ++ nm ++ " was flagged: " ++ expl).toList = _
    simp only [toList_append, List.append_assoc]
  · refine strContains_of_decomp _ _
      ("SECURITY WARNING: the output of tool ".toList ++ (nm.toList ++ " was flagged: ".toList))
      [] ?_
    show ("SECURITY WARNING: the output of tool " ++ nm ++ " was flagged: " ++ expl).toList = _
    simp only [toList_append, List.append_assoc, List.append_nil]

/-- C1: on a PreToolUse input whose tool_input is present (so the
serialized content is non-empty and the check runs) and on which the
provider alerts, `handle` emits the standard shape with continue true in
both response modes; in block mode the PreToolUse payload carries
permissionDecision "deny" with reason `"BLOCKED: " ++ explanation`, in
warn mode it carries permissionDecision "allow" and the output's
systemMessage is `"⚠️ WARNING: " ++ explanation`. -/
theorem pre_tool_use_alert_modes
    (provider : ContentToCheck → Option GuardrailAlert) (hi : HookInput)
    (a : GuardrailAlert) (j : J)
    (hev : hi.hook_event_name = .PRE_TOOL_USE)
    (hin : hi.tool_input = some j)
    (halert : provider (preToolContent hi) = some a) :
    (jLookup (HookHandler.handle provider "block" hi).1.to_dict "continue"
        = some (J.bool true) ∧
     ∃ ps, jLookup (HookHandler.handle provider "block" hi).1.to_dict "hookSpecificOutput"
         = some (J.obj ps) ∧
       jLookup ps "permissionDecision" = some (J.str "deny") ∧
       jLookup ps "permissionDecisionReason"
         = some (J.str ("BLOCKED: " ++ a.explanation))) ∧
    (jLookup (HookHandler.handle provider "warn" hi).1.to_dict "continue"
        = some (J.bool true) ∧
     (∃ ps, jLookup (HookHandler.handle provider "warn" hi).1.to_dict "hookSpecificOutput"
         = some (J.obj ps) ∧
       jLookup ps "permissionDecision" = some (J.str "allow")) ∧
     jLookup (HookHandler.handle provider "warn" hi).1.to_dict "systemMessage"
       = some (J.str ("⚠️ WARNING: " ++ a.explanation))) := by
  have hser : serializedToolInput hi = dumpJ j := by
    simp [serializedToolInput, hin]
  have hne : ¬ serializedToolInput hi = "" := by
    rw [hser]; exact dumpJ_ne_empty j
  constructor
  · simp [HookHandler.handle, hev, hne, halert, HookOutput.to_dict,
      PreToolUseOutput.to_dict, PermissionDecision.wire, jLookup]
  · simp [HookHandler.handle, hev, hne, halert, HookOutput.to_dict,
      PreToolUseOutput.to_dict, PermissionDecision.wire, jLookup]

theorem pre_tool_use_alert_modes_witness :
    (jLookup (HookHandler.handle (fun _ => some { explanation := "Dangerous" }) "block"
        { hook_event_name := .PRE_TOOL_USE, tool_input := some (J.str "ls") }).1.to_dict
        "continue" = some (J.bool true) ∧
     ∃ ps, jLookup (HookHandler.handle (fun _ => some { explanation := "Dangerous" }) "block"
         { hook_event_name := .PRE_TOOL_USE, tool_input := some (J.str "ls") }).1.to_dict
         "hookSpecificOutput" = some (J.obj ps) ∧
       jLookup ps "permissionDecision" = some (J.str "deny") ∧
       jLookup ps "permissionDecisionReason"
         = some (J.str ("BLOCKED: " ++ ({ explanation := "Dangerous" : GuardrailAlert}).explanation))) ∧
    (jLookup (HookHandler.handle (fun _ => some { explanation := "Dangerous" }) "warn"
        { hook_event_name := .PRE_TOOL_USE, tool_input := some (J.str "ls") }).1.to_dict
        "continue" = some (J.bool true) ∧
     (∃ ps, jLookup (HookHandler.handle (fun _ => some { explanation := "Dangerous" }) "warn"
         { hook_event_name := .PRE_TOOL_USE, tool_input := some (J.str "ls") }).1.to_dict
         "hookSpecificOutput" = some (J.obj ps) ∧
       jLookup ps "permissionDecision" = some (J.str "allow")) ∧
     jLookup (HookHandler.handle (fun _ => some { explanation := "Dangerous" }) "warn"
        { hook_event_name := .PRE_TOOL_USE, tool_input := some (J.str "ls") }).1.to_dict
        "systemMessage"
       = some (J.str ("⚠️ WARNING: " ++ ({ explanation := "Dangerous" : GuardrailAlert}).explanation))) :=
  pre_tool_use_alert_modes (fun _ => some { explanation := "Dangerous" })
    { hook_event_name := .PRE_TOOL_USE, tool_input := some (J.str "ls") }
    { explanation := "Dangerous" } (J.str "ls") rfl rfl rfl

/-- C2: on a PostToolUse input with a non-empty tool_result on which the
provider alerts: in block mode the serialized output carries the
top-level pair decision "block" and reason `"SECURITY ALERT: " ++
explanation`; in warn mode the decision key is absent and the
additionalContext inside hookSpecificOutput contains "SECURITY WARNING",
the tool name, and the explanation. -/
theorem post_tool_use_alert_modes
    (provider : ContentToCheck → Option GuardrailAlert) (hi : HookInput)
    (a : GuardrailAlert) (r nm : String)
    (hev : hi.hook_event_name = .POST_TOOL_USE)
    (hres : hi.tool_result = some r) (hne : r ≠ "")
    (hnm : hi.tool_name = some nm)
    (halert : provider (postToolContent hi r) = some a) :
    (jLookup (HookHandler.handle provider "block" hi).1.to_dict "decision"
        = some (J.str "block") ∧
     jLookup (HookHandler.handle provider "block" hi).1.to_dict "reason"
        = some (J.str ("SECURITY ALERT: " ++ a.explanation))) ∧
    (jLookup (HookHandler.handle provider "warn" hi).1.to_dict "decision" = none ∧
     ∃ ctx, (∃ ps, jLookup (HookHandler.handle provider "warn" hi).1.to_dict
           "hookSpecificOutput" = some (J.obj ps) ∧
         jLookup ps "additionalContext" = some (J.str ctx)) ∧
       strContains ctx "SECURITY WARNING" ∧ strContains ctx nm ∧
       strContains ctx a.explanation) := by
  constructor
  · simp [HookHandler.handle, hev, hres, hne, halert, HookOutput.to_dict,
      PostToolUseOutput.to_dict, jLookup]
  · constructor
    · simp [HookHandler.handle, hev, hres, hne, halert, HookOutput.to_dict,
        PostToolUseOutput.to_dict, jLookup]
    · refine ⟨securityWarningContext hi.tool_name a.explanation, ?_, ?_, ?_, ?_⟩
      · refine ⟨[("hookEventName", J.str "PostToolUse"),
          ("additionalContext",
           J.str (securityWarningContext hi.tool_name a.explanation))], ?_, rfl⟩
        simp [HookHandler.handle, hev, hres, hne, halert, HookOutput.to_dict,
          PostToolUseOutput.to_dict, jLookup]
      · rw [hnm]
        exact (securityWarningContext_parts nm a.explanation).1
      · rw [hnm]
        exact (securityWarningContext_parts nm a.explanation).2.1
      · rw [hnm]
        exact (securityWarningContext_parts nm a.explanation).2.2

theorem post_tool_use_alert_modes_witness :
    (jLookup (HookHandler.handle (fun _ => some { explanation := "Threat in output" }) "block"
        { hook_event_name := .POST_TOOL_USE, tool_name := some "Read",
          tool_result := some "data" }).1.to_dict "decision" = some (J.str "block") ∧
     jLookup (HookHandler.handle (fun _ => some { explanation := "Threat in output" }) "block"
        { hook_event_name := .POST_TOOL_USE, tool_name := some "Read",
          tool_result := some "data" }).1.to_dict "reason"
       = some (J.str ("SECURITY ALERT: "
           ++ ({ explanation := "Threat in output" : GuardrailAlert}).explanation))) ∧
    (jLookup (HookHandler.handle (fun _ => some { explanation := "Threat in output" }) "warn"
        { hook_event_name := .POST_TOOL_USE, tool_name := some "Read",
          tool_result := some "data" }).1.to_dict "decision" = none ∧
     ∃ ctx, (∃ ps, jLookup (HookHandler.handle
             (fun _ => some { explanation := "Threat in output" }) "warn"
           { hook_event_name := .POST_TOOL_USE, tool_name := some "Read",
             tool_result := some "data" }).1.to_dict "hookSpecificOutput"
           = some (J.obj ps) ∧
         jLookup ps "additionalContext" = some (J.str ctx)) ∧
       strContains ctx "SECURITY WARNING" ∧ strContains ctx "Read" ∧
       strContains ctx ({ explanation := "Threat in output" : GuardrailAlert}).explanation) :=
  post_tool_use_alert_modes (fun _ => some { explanation := "Threat in output" })
    { hook_event_name := .POST_TOOL_USE, tool_name := some "Read", tool_result := some "data" }
    { explanation := "Threat in output" } "data" "Read" rfl rfl (by decide) rfl rfl

/-- C7: `HookInput.from_dict` succeeds exactly when the input carries a
recognized `hook_event_name` wire value (including "SubagentStop" for
SUB_AGENT_STOP), and on success every absent optional field takes its
documented default; with no recognized event name (missing, non-string,
or unrecognized value) parsing is a hard error. -/
theorem hook_input_from_dict_spec (d : List (String × J)) :
    ((∃ e, HookInput.from_dict d = .error e) ↔
      ¬ ∃ s ev, jLookup d "hook_event_name" = some (J.str s) ∧
        recognizedEventName s = some ev) ∧
    (∀ s ev, jLookup d "hook_event_name" = some (J.str s) →
      recognizedEventName s = some ev →
      ∃ hi, HookInput.from_dict d = .ok hi ∧ hi.hook_event_name = ev ∧
        (jLookup d "session_id" = none → hi.session_id = "") ∧
        (jLookup d "transcript_path" = none → hi.transcript_path = "") ∧
        (jLookup d "cwd" = none → hi.cwd = "") ∧
        (jLookup d "permission_mode" = none → hi.permission_mode = "default") ∧
        (jLookup d "tool_name" = none → hi.tool_name = none) ∧
        (jLookup d "tool_input" = none → hi.tool_input = none) ∧
        (jLookup d "tool_use_id" = none → hi.tool_use_id = none) ∧
        (jLookup d "tool_result" = none → hi.tool_result = none)) ∧
    recognizedEventName "PreToolUse" = some .PRE_TOOL_USE ∧
    recognizedEventName "PostToolUse" = some .POST_TOOL_USE ∧
    recognizedEventName "Stop" = some .STOP ∧
    recognizedEventName "SubagentStop" = some .SUB_AGENT_STOP := by
  refine ⟨?_, ?_, rfl, rfl, rfl, rfl⟩
  · constructor
    · rintro ⟨e, he⟩ ⟨s, ev, hs, hev⟩
      simp [HookInput.from_dict, hs, hev] at he
    · intro hno
      rcases hj : jLookup d "hook_event_name" with _ | j
      · exact ⟨"Missing or invalid hook_event_name", by simp [HookInput.from_dict, hj]⟩
      · cases j with
        | str s =>
          rcases hev : recognizedEventName s with _ | ev
          · exact ⟨"Unknown hook_event_name: " ++ s,
              by simp [HookInput.from_dict, hj, hev]⟩
          · exact absurd ⟨s, ev, hj, hev⟩ hno
        | null => exact ⟨"Missing or invalid hook_event_name", by simp [HookInput.from_dict, hj]⟩
        | bool b => exact ⟨"Missing or invalid hook_event_name", by simp [HookInput.from_dict, hj]⟩
        | num n => exact ⟨"Missing or invalid hook_event_name", by simp [HookInput.from_dict, hj]⟩
        | arr xs => exact ⟨"Missing or invalid hook_event_name", by simp [HookInput.from_dict, hj]⟩
        | obj fs => exact ⟨"Missing or invalid hook_event_name", by simp [HookInput.from_dict, hj]⟩
  · intro s ev hs hev
    have hok : HookInput.from_dict d = .ok
        { session_id := getStrD d "session_id" ""
          transcript_path := getStrD d "transcript_path" ""
          cwd := getStrD d "cwd" ""
          permission_mode := getStrD d "permission_mode" "default"
          hook_event_name := ev
          tool_name := getOptStr d "tool_name"
          tool_input := getOptJ d "tool_input"
          tool_use_id := getOptStr d "tool_use_id"
          tool_result := getOptStr d "tool_result" } := by
      simp [HookInput.from_dict, hs, hev]
    refine ⟨_, hok, rfl, ?_, ?_, ?_, ?_, ?_, ?_, ?_, ?_⟩ <;>
      intro hnone
    · simp [getStrD, hnone]
    · simp [getStrD, hnone]
    · simp [getStrD, hnone]
    · simp [getStrD, hnone]
    · simp [getOptStr, hnone]
    · simp [getOptJ, hnone]
    · simp [getOptStr, hnone]
    · simp [getOptStr, hnone]

theorem hook_input_from_dict_spec_witness :
    (∃ hi, HookInput.from_dict [("hook_event_name", J.str "SubagentStop")] = .ok hi ∧
      hi.hook_event_name = .SUB_AGENT_STOP ∧
      (jLookup [("hook_event_name", J.str "SubagentStop")] "session_id" = none →
        hi.session_id = "") ∧
      (jLookup [("hook_event_name", J.str "SubagentStop")] "transcript_path" = none →
        hi.transcript_path = "") ∧
      (jLookup [("hook_event_name", J.str "SubagentStop")] "cwd" = none → hi.cwd = "") ∧
      (jLookup [("hook_event_name", J.str "SubagentStop")] "permission_mode" = none →
        hi.permission_mode = "default") ∧
      (jLookup [("hook_event_name", J.str "SubagentStop")] "tool_name" = none →
        hi.tool_name = none) ∧
      (jLookup [("hook_event_name", J.str "SubagentStop")] "tool_input" = none →
        hi.tool_input = none) ∧
      (jLookup [("hook_event_name", J.str "SubagentStop")] "tool_use_id" = none →
        hi.tool_use_id = none) ∧
      (jLookup [("hook_event_name", J.str "SubagentStop")] "tool_result" = none →
        hi.tool_result = none)) :=
  (hook_input_from_dict_spec [("hook_event_name", J.str "SubagentStop")]).2.1
    "SubagentStop" .SUB_AGENT_STOP rfl rfl

/-- C5: the check-mode entry point always exits with code 0 and writes
exactly one line; empty stdin, malformed JSON and a raised content-check
exception each produce a safe-true object with an error field (containing
"Invalid JSON" for malformed JSON and the exception message for a
provider exception), and no failure escapes. -/
theorem check_command_fail_open (stdin : StdinRead)
    (check : String → String → Option String → Except String CheckResult) :
    (handle_check_command stdin check).2 = 0 ∧
    (handle_check_command stdin check).1.toList.count '\n' = 1 ∧
    (stdin = .emptyInput →
      jLookup (handleCheckObj stdin check) "safe" = some (J.bool true) ∧
      ∃ m, jLookup (handleCheckObj stdin check) "error" = some (J.str m)) ∧
    (∀ msg, stdin = .invalidJson msg →
      jLookup (handleCheckObj stdin check) "safe" = some (J.bool true) ∧
      ∃ m, jLookup (handleCheckObj stdin check) "error" = some (J.str m) ∧
        strContains m "Invalid JSON") ∧
    (∀ d emsg, stdin = .parsed d → getStrD d "content" "" ≠ "" →
      check (getStrD d "content" "") (getStrD d "type" "tool_input")
          (getOptStr d "tool_name") = .error emsg →
      jLookup (handleCheckObj stdin check) "safe" = some (J.bool true) ∧
      jLookup (handleCheckObj stdin check) "error" = some (J.str emsg)) := by
  refine ⟨rfl, ?_, ?_, ?_, ?_⟩
  · show (dumpJ (J.obj (handleCheckObj stdin check)) ++ "\n").toList.count '\n' = 1
    rw [toList_append, List.count_append]
    rw [List.count_eq_zero.mpr (dumpJ_no_nl (J.obj (handleCheckObj stdin check)))]
    rfl
  · rintro rfl
    exact ⟨rfl, "Empty input", rfl⟩
  · rintro msg rfl
    refine ⟨rfl, "Invalid JSON: " ++ msg, rfl, ?_⟩
    refine strContains_of_decomp _ _ [] (": ".toList ++ msg.toList) ?_
    have hsplit : "Invalid JSON: ".toList = "Invalid JSON".toList ++ ": ".toList := by decide
    show ("Invalid JSON: " ++ msg).toList = _
    simp only [toList_append, hsplit, List.append_assoc, List.nil_append]
  · rintro d emsg rfl hne hcheck
    constructor
    · simp [handleCheckObj, hne, hcheck, jLookup]
    · simp [handleCheckObj, hne, hcheck, jLookup]

theorem check_command_fail_open_witness :
    (handle_check_command (.invalidJson "bad input") (fun _ _ _ => .ok { safe := true })).2
      = 0 ∧
    (handle_check_command (.invalidJson "bad input")
        (fun _ _ _ => .ok { safe := true })).1.toList.count '\n' = 1 ∧
    (jLookup (handleCheckObj (.invalidJson "bad input") (fun _ _ _ => .ok { safe := true }))
        "safe" = some (J.bool true) ∧
     ∃ m, jLookup (handleCheckObj (.invalidJson "bad input")
         (fun _ _ _ => .ok { safe := true })) "error" = some (J.str m) ∧
       strContains m "Invalid JSON") :=
  ⟨(check_command_fail_open (.invalidJson "bad input") (fun _ _ _ => .ok { safe := true })).1,
   (check_command_fail_open (.invalidJson "bad input") (fun _ _ _ => .ok { safe := true })).2.1,
   (check_command_fail_open (.invalidJson "bad input")
       (fun _ _ _ => .ok { safe := true })).2.2.2.1 "bad input" rfl⟩

/-- C9: in scanner mode "auto" with the fallback flag unset, an
authentication-type scan failure (message containing "gated repo",
"403" or "HfFolder") makes `check_content` flip the fallback flag and
re-invoke itself exactly once; the retry uses the no-auth scanner set
(without PROMPT_GUARD), a failure on the retry produces an alert rather
than a further retry, and no retry happens in mode "basic" or "full" or
once the fallback flag is set. -/
theorem lf_auto_fallback_retry (env : LFEnv) (c : ContentToCheck) (e : String)
    (himp : env.importError = none)
    (hscan : env.scan fullScanners (lfRoleOf c.content_type) c.content = .error e)
    (hauth : (strHasSub e "gated repo" || strHasSub e "403" || strHasSub e "HfFolder")
      = true) :
    (LlamaFirewallProvider.check_content env ⟨"auto", false⟩ c =
      LlamaFirewallProvider.check_content env ⟨"auto", true⟩ c) ∧
    lfGetScanners ⟨"auto", true⟩ = noAuthScanners ∧
    ScannerType.PROMPT_GUARD ∉ noAuthScanners ∧
    (∀ e2, env.scan noAuthScanners (lfRoleOf c.content_type) c.content = .error e2 →
      ∃ a, LlamaFirewallProvider.check_content env ⟨"auto", false⟩ c
          = (some a, ⟨"auto", true⟩) ∧
        jLookup a.data "error" = some (J.str e2)) ∧
    (∀ st2 : LFProvState,
      st2.scanner_mode = "basic" ∨ st2.scanner_mode = "full" ∨ st2.use_fallback = true →
      ∀ e3, env.scan (lfGetScanners st2) (lfRoleOf c.content_type) c.content = .error e3 →
        (strHasSub e3 "gated repo" || strHasSub e3 "403" || strHasSub e3 "HfFolder")
          = true →
        ∃ a, LlamaFirewallProvider.check_content env st2 c = (some a, st2)) := by
  have hscan2 : env.scan (lfGetScanners ⟨"auto", false⟩) (lfRoleOf c.content_type) c.content
      = .error e := by
    rw [show lfGetScanners ⟨"auto", false⟩ = fullScanners from rfl]
    exact hscan
  have h1 : LlamaFirewallProvider.check_content env ⟨"auto", false⟩ c =
      LlamaFirewallProvider.check_content env ⟨"auto", true⟩ c := by
    conv_lhs => rw [LlamaFirewallProvider.check_content.eq_def]
    simp only [himp, hscan2]
    cases hgc : (strHasSub e "gated repo" || strHasSub e "403") with
    | true => simp [hgc]
    | false =>
      have hhf : strHasSub e "HfFolder" = true := by
        rw [hgc] at hauth
        simpa using hauth
      simp [hgc, hhf]
  refine ⟨h1, rfl, by decide, ?_, ?_⟩
  · intro e2 hscan3
    have hscan4 : env.scan (lfGetScanners ⟨"auto", true⟩) (lfRoleOf c.content_type) c.content
        = .error e2 := by
      rw [show lfGetScanners ⟨"auto", true⟩ = noAuthScanners from rfl]
      exact hscan3
    cases hgc2 : (strHasSub e2 "gated repo" || strHasSub e2 "403") with
    | true =>
      have h2 : LlamaFirewallProvider.check_content env ⟨"auto", true⟩ c =
          (some { explanation := authErrorExplanation, data := [("error", J.str e2)] },
           ⟨"auto", true⟩) := by
        conv_lhs => rw [LlamaFirewallProvider.check_content.eq_def]
        simp [himp, hscan4, hgc2]
      exact ⟨{ explanation := authErrorExplanation, data := [("error", J.str e2)] },
        by rw [h1, h2], rfl⟩
    | false =>
      cases hhf2 : strHasSub e2 "HfFolder" with
      | true =>
        have h2 : LlamaFirewallProvider.check_content env ⟨"auto", true⟩ c =
            (some { explanation := hfErrorExplanation, data := [("error", J.str e2)] },
             ⟨"auto", true⟩) := by
          conv_lhs => rw [LlamaFirewallProvider.check_content.eq_def]
          simp [himp, hscan4, hgc2, hhf2]
        exact ⟨{ explanation := hfErrorExplanation, data := [("error", J.str e2)] },
          by rw [h1, h2], rfl⟩
      | false =>
        have h2 : LlamaFirewallProvider.check_content env ⟨"auto", true⟩ c =
            (some { explanation := "LlamaFirewall error: " ++ e2,
                    data := [("error", J.str e2)] },
             ⟨"auto", true⟩) := by
          conv_lhs => rw [LlamaFirewallProvider.check_content.eq_def]
          simp [himp, hscan4, hgc2, hhf2]
        exact ⟨{ explanation := "LlamaFirewall error: " ++ e2,
                 data := [("error", J.str e2)] },
          by rw [h1, h2], rfl⟩
  · intro st2 hst2 e3 hscan3 hauth3
    have hcond : ¬ (st2.use_fallback = false ∧ st2.scanner_mode = "auto") := by
      rcases hst2 with hm | hm | hf
      · rintro ⟨_, hmo⟩
        rw [hm] at hmo
        exact absurd hmo (by decide)
      · rintro ⟨_, hmo⟩
        rw [hm] at hmo
        exact absurd hmo (by decide)
      · rintro ⟨hfb, _⟩
        rw [hf] at hfb
        exact Bool.noConfusion hfb
    cases hgc3 : (strHasSub e3 "gated repo" || strHasSub e3 "403") with
    | true =>
      have h2 : LlamaFirewallProvider.check_content env st2 c =
          (some { explanation := authErrorExplanation, data := [("error", J.str e3)] },
           st2) := by
        conv_lhs => rw [LlamaFirewallProvider.check_content.eq_def]
        simp [himp, hscan3, hgc3, hcond]
      exact ⟨_, h2⟩
    | false =>
      cases hhf3 : strHasSub e3 "HfFolder" with
      | true =>
        have h2 : LlamaFirewallProvider.check_content env st2 c =
            (some { explanation := hfErrorExplanation, data := [("error", J.str e3)] },
             st2) := by
          conv_lhs => rw [LlamaFirewallProvider.check_content.eq_def]
          simp [himp, hscan3, hgc3, hhf3, hcond]
        exact ⟨_, h2⟩
      | false =>
        rw [hgc3] at hauth3
        rw [hhf3] at hauth3
        simp at hauth3

theorem lf_auto_fallback_retry_witness :
    (LlamaFirewallProvider.check_content c8ScanEnv ⟨"auto", false⟩
        { content := "x", content_type := "tool_input" } =
      LlamaFirewallProvider.check_content c8ScanEnv ⟨"auto", true⟩
        { content := "x", content_type := "tool_input" }) ∧
    lfGetScanners ⟨"auto", true⟩ = noAuthScanners ∧
    ScannerType.PROMPT_GUARD ∉ noAuthScanners :=
  ⟨(lf_auto_fallback_retry c8ScanEnv { content := "x", content_type := "tool_input" }
      "403" rfl rfl (by decide)).1,
   (lf_auto_fallback_retry c8ScanEnv { content := "x", content_type := "tool_input" }
      "403" rfl rfl (by decide)).2.1,
   (lf_auto_fallback_retry c8ScanEnv { content := "x", content_type := "tool_input" }
      "403" rfl rfl (by decide)).2.2.1⟩

/-- C8, counterexample to the claim as stated: in auto mode with the
fallback flag unset, an authentication-type scan failure is not returned
as an error alert; the retry is returned instead, and here the retry
scan allows, so `check_content` returns no alert at all. -/
theorem lf_failure_alert_counterexample :
    ¬ (∀ (env : LFEnv) (st : LFProvState) (c : ContentToCheck) (e : String),
        env.importError = none →
        env.scan (lfGetScanners st) (lfRoleOf c.content_type) c.content = .error e →
        ∃ a, (LlamaFirewallProvider.check_content env st c).1 = some a ∧
          jLookup a.data "error" = some (J.str e)) := by
  intro hclaim
  have hval : (LlamaFirewallProvider.check_content c8ScanEnv ⟨"auto", false⟩
      { content := "x", content_type := "tool_input" }).1 = none := by
    unfold LlamaFirewallProvider.check_content
    simp [c8ScanEnv, lfGetScanners, fullScanners, noAuthScanners, lfRoleOf,
      strHasSub, hasSubList]
    unfold LlamaFirewallProvider.check_content
    simp [c8ScanEnv, lfGetScanners, fullScanners, noAuthScanners, lfRoleOf,
      strHasSub, hasSubList]
  obtain ⟨a, ha, _⟩ := hclaim c8ScanEnv ⟨"auto", false⟩
    { content := "x", content_type := "tool_input" } "403" rfl rfl
  rw [hval] at ha
  exact Option.noConfusion ha

/-- C8 amended: `check_content` never propagates a llamafirewall
failure; an import failure, and any scan failure outside the single
auto-mode fallback retry, is returned as an alert whose data carries an
`error` entry holding the failure message; an auth-type scan failure in
auto mode with the fallback flag unset instead triggers the one retry
whose outcome is returned. -/
theorem lf_failure_alert_amended (env : LFEnv) (st : LFProvState) (c : ContentToCheck) :
    (∀ err, env.importError = some err →
      ∃ a, LlamaFirewallProvider.check_content env st c = (some a, st) ∧
        jLookup a.data "error" = some (J.str err)) ∧
    (∀ e, env.importError = none →
      env.scan (lfGetScanners st) (lfRoleOf c.content_type) c.content = .error e →
      ¬ (st.use_fallback = false ∧ st.scanner_mode = "auto" ∧
         (strHasSub e "gated repo" || strHasSub e "403" || strHasSub e "HfFolder")
           = true) →
      ∃ a, LlamaFirewallProvider.check_content env st c = (some a, st) ∧
        jLookup a.data "error" = some (J.str e)) ∧
    (∀ e, env.importError = none →
      st.use_fallback = false → st.scanner_mode = "auto" →
      env.scan (lfGetScanners st) (lfRoleOf c.content_type) c.content = .error e →
      (strHasSub e "gated repo" || strHasSub e "403" || strHasSub e "HfFolder") = true →
      LlamaFirewallProvider.check_content env st c =
        LlamaFirewallProvider.check_content env { st with use_fallback := true } c) := by
  refine ⟨?_, ?_, ?_⟩
  · intro err himp
    refine ⟨{ explanation := importErrorExplanation err,
              data := [("error", J.str err)] }, ?_, rfl⟩
    conv_lhs => rw [LlamaFirewallProvider.check_content.eq_def]
    simp [himp]
  · intro e himp hscan hn
    have hcond : ¬ (st.use_fallback = false ∧ st.scanner_mode = "auto") ∨
        (strHasSub e "gated repo" || strHasSub e "403" || strHasSub e "HfFolder") = false := by
      by_cases h1 : st.use_fallback = false ∧ st.scanner_mode = "auto"
      · right
        by_contra h2
        simp only [Bool.not_eq_false] at h2
        exact hn ⟨h1.1, h1.2, h2⟩
      · left
        exact h1
    cases hgc : (strHasSub e "gated repo" || strHasSub e "403") with
    | true =>
      have hcnd : ¬ (st.use_fallback = false ∧ st.scanner_mode = "auto") := by
        rcases hcond with h | h
        · exact h
        · rw [hgc] at h
          simp at h
      refine ⟨{ explanation := authErrorExplanation, data := [("error", J.str e)] }, ?_, rfl⟩
      conv_lhs => rw [LlamaFirewallProvider.check_content.eq_def]
      simp [himp, hscan, hgc, hcnd]
    | false =>
      cases hhf : strHasSub e "HfFolder" with
      | true =>
        have hcnd : ¬ (st.use_fallback = false ∧ st.scanner_mode = "auto") := by
          rcases hcond with h | h
          · exact h
          · rw [hgc, hhf] at h
            simp at h
        refine ⟨{ explanation := hfErrorExplanation, data := [("error", J.str e)] }, ?_, rfl⟩
        conv_lhs => rw [LlamaFirewallProvider.check_content.eq_def]
        simp [himp, hscan, hgc, hhf, hcnd]
      | false =>
        refine ⟨{ explanation := "LlamaFirewall error: " ++ e,
                  data := [("error", J.str e)] }, ?_, rfl⟩
        conv_lhs => rw [LlamaFirewallProvider.check_content.eq_def]
        simp [himp, hscan, hgc, hhf]
  · intro e himp hfb hmode hscan hauth
    conv_lhs => rw [LlamaFirewallProvider.check_content.eq_def]
    simp only [himp, hscan]
    cases hgc : (strHasSub e "gated repo" || strHasSub e "403") with
    | true => simp [hgc, hfb, hmode]
    | false =>
      have hhf : strHasSub e "HfFolder" = true := by
        rw [hgc] at hauth
        simpa using hauth
      simp [hgc, hhf, hfb, hmode]

theorem lf_failure_alert_amended_witness :
    ∃ a, LlamaFirewallProvider.check_content c8ImportEnv ⟨"basic", false⟩
        { content := "x", content_type := "tool_input" } = (some a, ⟨"basic", false⟩) ∧
      jLookup a.data "error" = some (J.str "No module named llamafirewall") :=
  (lf_failure_alert_amended c8ImportEnv ⟨"basic", false⟩
    { content := "x", content_type := "tool_input" }).1
    "No module named llamafirewall" rfl

/-- C10: `set_enabled` rewrites exactly the multiline matches of
`^enabled:\s*(true|false)` in the existing config file, replacing each
matched region by `enabled: <true|false>` and leaving every other
character unchanged (the chunk decomposition re-assembles to the
original content and every matched chunk is a genuine pattern match);
when no match exists the line is prepended, when the file does not exist
the default template is written first, and in all cases the cached
global config is reset so the next `get_config` reloads from disk. -/
theorem set_enabled_frame (b : Bool) (fs : ConfigStore) (base repl : List Char)
    (hbase : fs.file = some base ∨ (fs.file = none ∧ base = DEFAULT_CONFIG_TEMPLATE.toList))
    (hrepl : ("enabled: " ++ (if b then "true" else "false")).toList = repl) :
    (set_enabled b fs).cache = none ∧
    (∀ load, (get_config load (set_enabled b fs)).1 = load (set_enabled b fs).file) ∧
    (hasEnabledMatch base = false →
      (set_enabled b fs).file = some (repl ++ '\n' :: '\n' :: base)) ∧
    (hasEnabledMatch base = true →
      (set_enabled b fs).file = some (chunksSubst repl (enChunks base)) ∧
      chunksOrig (enChunks base) = base ∧
      (∀ o, EnChunk.matched o ∈ enChunks base →
        ∃ w lit, o = "enabled:".toList ++ w ++ lit ∧
          (∀ ch ∈ w, isPySpace ch = true) ∧
          (lit = "true".toList ∨ lit = "false".toList))) := by
  obtain ⟨f, cch⟩ := fs
  have hfile : (match ({ file := f, cache := cch } : ConfigStore).file with
      | none => DEFAULT_CONFIG_TEMPLATE.toList
      | some c => c) = base := by
    rcases hbase with hf | ⟨hf, hb⟩
    · simp only at hf
      rw [hf]
    · simp only at hf
      rw [hf, hb]
  refine ⟨rfl, fun load => rfl, ?_, ?_⟩
  · intro hm
    show some _ = _
    rw [hfile, hrepl, hm]
    simp
  · intro hm
    refine ⟨?_, enChunksAux_orig _ _ _, fun o homem => enChunksAux_matched _ _ _ o homem⟩
    show some _ = _
    rw [hfile, hrepl, hm]
    simp only [if_true]
    rw [subEnabled, subEnabledAux_eq_chunks]
    rfl

theorem set_enabled_frame_witness :
    hasEnabledMatch ("enabled: true\nprovider: X\n").toList = true ∧
    (set_enabled false
        { file := some ("enabled: true\nprovider: X\n").toList, cache := some {} }).cache
      = none ∧
    (set_enabled false
        { file := some ("enabled: true\nprovider: X\n").toList, cache := some {} }).file
      = some (chunksSubst ("enabled: false").toList
          (enChunks ("enabled: true\nprovider: X\n").toList)) :=
  ⟨by decide,
   (set_enabled_frame false
      { file := some ("enabled: true\nprovider: X\n").toList, cache := some {} }
      ("enabled: true\nprovider: X\n").toList ("enabled: false").toList
      (Or.inl rfl) rfl).1,
   ((set_enabled_frame false
      { file := some ("enabled: true\nprovider: X\n").toList, cache := some {} }
      ("enabled: true\nprovider: X\n").toList ("enabled: false").toList
      (Or.inl rfl) rfl).2.2.2 (by decide)).1⟩

end ContextProtector
